import Mathlib

/-!
Verification of the grid-update core of `tb_vector_gen.py`, a generator of
Conway's-Game-of-Life test vectors.  The Python function `update(grid, N)`
copies the grid, computes for every cell a 9-branch boundary-classified
neighbour sum `total`, applies the birth/survival rule, and writes the result
into the copy.  We embed the function shallowly: a grid is a total function
from coordinates to integer cell values, the imperative double loop becomes a
`List.foldl` over row/column indices threading the pair (grid, newGrid), and
a cell assignment becomes a pointwise function update on the newGrid
component.
-/

namespace Conway

/-- A grid: a total map from (row, col) to the integer stored in that cell.
The Python source uses a numpy N×N integer matrix; only coordinates below N
are meaningful. -/
def Grid : Type := Nat → Nat → Int

/-- The live marker, `ON = 1` in the source. -/
def ON : Int := 1

/-- The dead marker, `OFF = 0` in the source. -/
def OFF : Int := 0

/-- The 9-branch neighbour sum `total` computed in the body of `update`:
the source classifies the cell by `i == 0` / `i == N-1` / interior and
`j == 0` / `j == N-1` / interior and sums an explicit list of neighbour
reads for each of the nine cases. -/
def total (grid : Grid) (N i j : Nat) : Int :=
  if i = 0 then
    if j = 0 then
      grid i (j+1) + grid (i+1) j + grid (i+1) (j+1)
    else if j = N - 1 then
      grid i (j-1) + grid (i+1) j + grid (i+1) (j-1)
    else
      grid i (j-1) + grid i (j+1) + grid (i+1) j + grid (i+1) (j-1) + grid (i+1) (j+1)
  else if i = N - 1 then
    if j = 0 then
      grid i (j+1) + grid (i-1) j + grid (i-1) (j+1)
    else if j = N - 1 then
      grid i (j-1) + grid (i-1) j + grid (i-1) (j-1)
    else
      grid i (j-1) + grid i (j+1) + grid (i-1) j + grid (i-1) (j-1) + grid (i-1) (j+1)
  else
    if j = 0 then
      grid i (j+1) + grid (i-1) j + grid (i+1) j + grid (i-1) (j+1) + grid (i+1) (j+1)
    else if j = N - 1 then
      grid i (j-1) + grid (i-1) j + grid (i+1) j + grid (i-1) (j-1) + grid (i+1) (j-1)
    else
      grid i (j-1) + grid i (j+1) + grid (i-1) j + grid (i+1) j +
        grid (i-1) (j-1) + grid (i-1) (j+1) + grid (i+1) (j-1) + grid (i+1) (j+1)

/-- Assignment `g[i, j] = v` as a pointwise function update. -/
def writeCell (g : Grid) (i j : Nat) (v : Int) : Grid :=
  fun a b => if a = i ∧ b = j then v else g a b

/-- One iteration of the inner loop body of `update`, acting on the state
(grid, newGrid): reads `grid`, computes `total`, and either assigns
`newGrid[i,j]` or leaves the state unchanged, exactly as the source's rule
application does. -/
def stepCell (N i j : Nat) (st : Grid × Grid) : Grid × Grid :=
  if st.1 i j = ON then
    if total st.1 N i j < 2 ∨ total st.1 N i j > 3 then (st.1, writeCell st.2 i j OFF)
    else st
  else
    if total st.1 N i j = 3 then (st.1, writeCell st.2 i j ON)
    else st

/-- The double loop of `update`, threading the state (grid, newGrid).  The
initial state is `(grid, grid)`: `newGrid = grid.copy()`. -/
def updateSt (grid : Grid) (N : Nat) : Grid × Grid :=
  (List.range N).foldl
    (fun st i => (List.range N).foldl (fun st j => stepCell N i j st) st)
    (grid, grid)

/-- `update(grid, N)`: the returned `newGrid`. -/
def update (grid : Grid) (N : Nat) : Grid := (updateSt grid N).2

/-- The inner loop body with the unchanging `grid` factored out: how one cell
step transforms the newGrid alone. -/
def updateCell (grid newGrid : Grid) (N i j : Nat) : Grid :=
  if grid i j = ON then
    if total grid N i j < 2 ∨ total grid N i j > 3 then writeCell newGrid i j OFF
    else newGrid
  else
    if total grid N i j = 3 then writeCell newGrid i j ON
    else newGrid

/-- The value cell (i, j) holds after its own step, as a function of the
newGrid passed into that step. -/
def applyCell (grid newGrid : Grid) (N i j : Nat) : Int :=
  if grid i j = ON then
    if total grid N i j < 2 ∨ total grid N i j > 3 then OFF
    else newGrid i j
  else
    if total grid N i j = 3 then ON
    else newGrid i j

/-- The next-generation value of cell (i, j): the rule applied with the
copy-of-input default. -/
def nextCell (grid : Grid) (N i j : Nat) : Int :=
  applyCell grid grid N i j

/-- The binary-grid invariant: every cell of the N×N region is OFF or ON. -/
def Binary (grid : Grid) (N : Nat) : Prop :=
  ∀ i j : Nat, i < N → j < N → grid i j = OFF ∨ grid i j = ON

/-- The all-dead grid. -/
def deadGrid : Grid := fun _ _ => OFF

/-- The all-live grid. -/
def liveGrid : Grid := fun _ _ => ON

/-- A malformed grid holding the non-binary value 2 in its top-left cell. -/
def gTwo : Grid := fun i j => if i = 0 ∧ j = 0 then 2 else OFF

/-- An otherwise dead grid whose cell (2, 2) is live. -/
def cornerFar : Grid := fun i j => if i = 2 ∧ j = 2 then ON else OFF

/-- The horizontal blinker in a 5×5 grid: row 2, columns 1..3 live. -/
def blinkerH : Grid := fun i j => if i = 2 ∧ (j = 1 ∨ j = 2 ∨ j = 3) then ON else OFF

/-- The vertical blinker in a 5×5 grid: column 2, rows 1..3 live. -/
def blinkerV : Grid := fun i j => if j = 2 ∧ (i = 1 ∨ i = 2 ∨ i = 3) then ON else OFF

/-- Row fold: the inner loop of `update` over column indices `0..k-1`,
with the read grid fixed. -/
def rowFold (g ng : Grid) (N i k : Nat) : Grid :=
  (List.range k).foldl (fun ng j => updateCell g ng N i j) ng

/-- Grid fold: the outer loop of `update` over row indices `0..k-1`. -/
def gridFold (g : Grid) (N k : Nat) : Grid :=
  (List.range k).foldl (fun ng i => rowFold g ng N i N) g

/-- Modelled from the spec: the 8 relative offsets of the Chebyshev-distance-1
neighbourhood, in row-major order. -/
def neighborOffsets : List (Int × Int) :=
  [(-1, -1), (-1, 0), (-1, 1), (0, -1), (0, 1), (1, -1), (1, 0), (1, 1)]

/-- Modelled from the spec: is an (row, col) position inside the N×N grid? -/
def inBounds (N : Nat) (p : Int × Int) : Bool :=
  decide (0 ≤ p.1 ∧ p.1 < (N : Int) ∧ 0 ≤ p.2 ∧ p.2 < (N : Int))

/-- Modelled from the spec: the in-bounds neighbours of cell (i, j), obtained
by enumerating the 8 relative offsets and filtering out the out-of-bounds
positions. -/
def inboundsNeighbors (N i j : Nat) : List (Int × Int) :=
  (neighborOffsets.map (fun d => ((i : Int) + d.1, (j : Int) + d.2))).filter (inBounds N)

/-- Modelled from the spec: the uniform reference neighbour-sum routine, the
sum of the binary states of exactly the in-bounds neighbours. -/
def uniformTotal (grid : Grid) (N i j : Nat) : Int :=
  (inboundsNeighbors N i j).foldl (fun s p => s + grid p.1.toNat p.2.toNat) 0

/-- The live-neighbour count of cell (i, j): how many in-bounds neighbours
hold the live marker. -/
def liveNeighborCount (grid : Grid) (N i j : Nat) : Nat :=
  ((inboundsNeighbors N i j).filter (fun p => grid p.1.toNat p.2.toNat == ON)).length

/-- numpy access `grid[a, b]` on an N×N array: indices in [-N, N) are valid
(negative indices wrap to the end), anything else raises IndexError,
modelled as `none`. -/
def npGet (grid : Grid) (N : Nat) (a b : Int) : Option Int :=
  if -(N : Int) ≤ a ∧ a < (N : Int) ∧ -(N : Int) ≤ b ∧ b < (N : Int) then
    some (grid (a % (N : Int)).toNat (b % (N : Int)).toNat)
  else none

/-- The 9-branch neighbour sum of `update` with every grid access
bounds-checked as numpy performs it; `none` models an IndexError escaping
the call. -/
def totalChecked (grid : Grid) (N : Nat) (i j : Int) : Option Int :=
  if i = 0 then
    if j = 0 then do
      let a ← npGet grid N i (j+1)
      let b ← npGet grid N (i+1) j
      let c ← npGet grid N (i+1) (j+1)
      pure (a + b + c)
    else if j = (N : Int) - 1 then do
      let a ← npGet grid N i (j-1)
      let b ← npGet grid N (i+1) j
      let c ← npGet grid N (i+1) (j-1)
      pure (a + b + c)
    else do
      let a ← npGet grid N i (j-1)
      let b ← npGet grid N i (j+1)
      let c ← npGet grid N (i+1) j
      let d ← npGet grid N (i+1) (j-1)
      let e ← npGet grid N (i+1) (j+1)
      pure (a + b + c + d + e)
  else if i = (N : Int) - 1 then
    if j = 0 then do
      let a ← npGet grid N i (j+1)
      let b ← npGet grid N (i-1) j
      let c ← npGet grid N (i-1) (j+1)
      pure (a + b + c)
    else if j = (N : Int) - 1 then do
      let a ← npGet grid N i (j-1)
      let b ← npGet grid N (i-1) j
      let c ← npGet grid N (i-1) (j-1)
      pure (a + b + c)
    else do
      let a ← npGet grid N i (j-1)
      let b ← npGet grid N i (j+1)
      let c ← npGet grid N (i-1) j
      let d ← npGet grid N (i-1) (j-1)
      let e ← npGet grid N (i-1) (j+1)
      pure (a + b + c + d + e)
  else
    if j = 0 then do
      let a ← npGet grid N i (j+1)
      let b ← npGet grid N (i-1) j
      let c ← npGet grid N (i+1) j
      let d ← npGet grid N (i-1) (j+1)
      let e ← npGet grid N (i+1) (j+1)
      pure (a + b + c + d + e)
    else if j = (N : Int) - 1 then do
      let a ← npGet grid N i (j-1)
      let b ← npGet grid N (i-1) j
      let c ← npGet grid N (i+1) j
      let d ← npGet grid N (i-1) (j-1)
      let e ← npGet grid N (i+1) (j-1)
      pure (a + b + c + d + e)
    else do
      let a ← npGet grid N i (j-1)
      let b ← npGet grid N i (j+1)
      let c ← npGet grid N (i-1) j
      let d ← npGet grid N (i+1) j
      let e ← npGet grid N (i-1) (j-1)
      let f ← npGet grid N (i-1) (j+1)
      let g ← npGet grid N (i+1) (j-1)
      let h ← npGet grid N (i+1) (j+1)
      pure (a + b + c + d + e + f + g + h)

lemma stepCell_eq (N i j : Nat) (g ng : Grid) :
    stepCell N i j (g, ng) = (g, updateCell g ng N i j) := by
  unfold stepCell updateCell
  split_ifs <;> rfl

lemma foldl_fix_fst {α : Type} (F : Grid × Grid → α → Grid × Grid)
    (f : Grid → Grid → α → Grid)
    (hF : ∀ g s x, F (g, s) x = (g, f g s x)) :
    ∀ (l : List α) (g s : Grid), l.foldl F (g, s) = (g, l.foldl (fun s x => f g s x) s) := by
  intro l
  induction l with
  | nil => intro g s; rfl
  | cons x xs ih =>
    intro g s
    simp only [List.foldl_cons, hF]
    exact ih g (f g s x)

lemma updateSt_eq (g : Grid) (N : Nat) :
    updateSt g N = (g, gridFold g N N) := by
  unfold updateSt gridFold rowFold
  refine foldl_fix_fst _
    (fun g s i => (List.range N).foldl (fun s j => updateCell g s N i j) s) ?_
    (List.range N) g g
  intro g s i
  exact foldl_fix_fst (fun st j => stepCell N i j st)
    (fun g s j => updateCell g s N i j)
    (fun g s j => stepCell_eq N i j g s) (List.range N) g s

lemma applyCell_congr (g ng₁ ng₂ : Grid) (N i j : Nat) (h : ng₁ i j = ng₂ i j) :
    applyCell g ng₁ N i j = applyCell g ng₂ N i j := by
  unfold applyCell
  split_ifs <;> simp [h]

lemma updateCell_apply (g ng : Grid) (N i j a b : Nat) :
    updateCell g ng N i j a b = if a = i ∧ b = j then applyCell g ng N i j else ng a b := by
  unfold updateCell applyCell
  split_ifs <;> simp_all [writeCell]

lemma rowFold_apply (g ng : Grid) (N i : Nat) :
    ∀ (k a b : Nat),
      rowFold g ng N i k a b = if a = i ∧ b < k then applyCell g ng N i b else ng a b := by
  intro k
  induction k with
  | zero => intro a b; simp [rowFold]
  | succ k ih =>
    intro a b
    rw [rowFold, List.range_succ, List.foldl_append, List.foldl_cons, List.foldl_nil]
    have hrow : (List.range k).foldl (fun ng j => updateCell g ng N i j) ng
        = rowFold g ng N i k := rfl
    rw [hrow, updateCell_apply]
    by_cases hab : a = i ∧ b = k
    · obtain ⟨rfl, rfl⟩ := hab
      rw [if_pos ⟨rfl, rfl⟩, if_pos ⟨rfl, Nat.lt_succ_self _⟩]
      exact applyCell_congr _ _ _ _ _ _ (by rw [ih]; simp)
    · rw [if_neg hab, ih]
      split_ifs with h₁ h₂ h₂ <;> first | rfl | omega


lemma gridFold_apply (g : Grid) (N : Nat) :
    ∀ (k a b : Nat),
      gridFold g N k a b = if a < k ∧ b < N then nextCell g N a b else g a b := by
  intro k
  induction k with
  | zero => intro a b; simp [gridFold]
  | succ k ih =>
    intro a b
    rw [gridFold, List.range_succ, List.foldl_append, List.foldl_cons, List.foldl_nil]
    have hgf : (List.range k).foldl (fun ng i => rowFold g ng N i N) g
        = gridFold g N k := rfl
    rw [hgf, rowFold_apply]
    by_cases hab : a = k ∧ b < N
    · obtain ⟨rfl, hb⟩ := hab
      rw [if_pos ⟨rfl, hb⟩, if_pos ⟨Nat.lt_succ_self _, hb⟩]
      exact applyCell_congr _ _ _ _ _ _ (by rw [ih]; simp)
    · rw [if_neg hab, ih]
      unfold nextCell
      split_ifs with h₁ h₂ h₂ <;> first | rfl | omega

lemma update_apply_full (g : Grid) (N a b : Nat) :
    update g N a b = if a < N ∧ b < N then nextCell g N a b else g a b := by
  rw [update, updateSt_eq]
  exact gridFold_apply g N N a b

lemma update_apply (g : Grid) {N a b : Nat} (ha : a < N) (hb : b < N) :
    update g N a b = nextCell g N a b := by
  rw [update_apply_full, if_pos ⟨ha, hb⟩]


lemma inBounds_true {N : Nat} {a b : Int} (h1 : 0 ≤ a) (h2 : a < (N : Int))
    (h3 : 0 ≤ b) (h4 : b < (N : Int)) : inBounds N (a, b) = true := by
  simp only [inBounds, decide_eq_true_eq]
  exact ⟨h1, h2, h3, h4⟩

lemma inBounds_false {N : Nat} {a b : Int}
    (h : a < 0 ∨ (N : Int) ≤ a ∨ b < 0 ∨ (N : Int) ≤ b) :
    ¬ (inBounds N (a, b) = true) := by
  simp only [inBounds, decide_eq_true_eq]
  omega

lemma ib_tl {N : Nat} (hN : 2 ≤ N) :
    inboundsNeighbors N 0 0 = [(0, 1), (1, 0), (1, 1)] := by
  unfold inboundsNeighbors neighborOffsets
  simp only [List.map_cons, List.map_nil]
  rw [List.filter_cons, if_neg (inBounds_false (by omega))]
  rw [List.filter_cons, if_neg (inBounds_false (by omega))]
  rw [List.filter_cons, if_neg (inBounds_false (by omega))]
  rw [List.filter_cons, if_neg (inBounds_false (by omega))]
  rw [List.filter_cons, if_pos (inBounds_true (by omega) (by omega) (by omega) (by omega))]
  rw [List.filter_cons, if_neg (inBounds_false (by omega))]
  rw [List.filter_cons, if_pos (inBounds_true (by omega) (by omega) (by omega) (by omega))]
  rw [List.filter_cons, if_pos (inBounds_true (by omega) (by omega) (by omega) (by omega))]
  rw [List.filter_nil]
  norm_num [sub_eq_add_neg]

lemma ib_tr {N j : Nat} (hN : 2 ≤ N) (hj : j = N - 1) :
    inboundsNeighbors N 0 j =
      [((0 : Int), (j : Int) - 1), ((1 : Int), (j : Int) - 1), ((1 : Int), (j : Int))] := by
  unfold inboundsNeighbors neighborOffsets
  simp only [List.map_cons, List.map_nil]
  rw [List.filter_cons, if_neg (inBounds_false (by omega))]
  rw [List.filter_cons, if_neg (inBounds_false (by omega))]
  rw [List.filter_cons, if_neg (inBounds_false (by omega))]
  rw [List.filter_cons, if_pos (inBounds_true (by omega) (by omega) (by omega) (by omega))]
  rw [List.filter_cons, if_neg (inBounds_false (by omega))]
  rw [List.filter_cons, if_pos (inBounds_true (by omega) (by omega) (by omega) (by omega))]
  rw [List.filter_cons, if_pos (inBounds_true (by omega) (by omega) (by omega) (by omega))]
  rw [List.filter_cons, if_neg (inBounds_false (by omega))]
  rw [List.filter_nil]
  norm_num [sub_eq_add_neg]

lemma ib_top {N j : Nat} (hN : 2 ≤ N) (hj : j < N) (hj0 : j ≠ 0) (hjN : j ≠ N - 1) :
    inboundsNeighbors N 0 j =
      [((0 : Int), (j : Int) - 1), ((0 : Int), (j : Int) + 1),
       ((1 : Int), (j : Int) - 1), ((1 : Int), (j : Int)), ((1 : Int), (j : Int) + 1)] := by
  unfold inboundsNeighbors neighborOffsets
  simp only [List.map_cons, List.map_nil]
  rw [List.filter_cons, if_neg (inBounds_false (by omega))]
  rw [List.filter_cons, if_neg (inBounds_false (by omega))]
  rw [List.filter_cons, if_neg (inBounds_false (by omega))]
  rw [List.filter_cons, if_pos (inBounds_true (by omega) (by omega) (by omega) (by omega))]
  rw [List.filter_cons, if_pos (inBounds_true (by omega) (by omega) (by omega) (by omega))]
  rw [List.filter_cons, if_pos (inBounds_true (by omega) (by omega) (by omega) (by omega))]
  rw [List.filter_cons, if_pos (inBounds_true (by omega) (by omega) (by omega) (by omega))]
  rw [List.filter_cons, if_pos (inBounds_true (by omega) (by omega) (by omega) (by omega))]
  rw [List.filter_nil]
  norm_num [sub_eq_add_neg]

lemma ib_bl {N i : Nat} (hN : 2 ≤ N) (hi : i = N - 1) :
    inboundsNeighbors N i 0 =
      [((i : Int) - 1, (0 : Int)), ((i : Int) - 1, (1 : Int)), ((i : Int), (1 : Int))] := by
  unfold inboundsNeighbors neighborOffsets
  simp only [List.map_cons, List.map_nil]
  rw [List.filter_cons, if_neg (inBounds_false (by omega))]
  rw [List.filter_cons, if_pos (inBounds_true (by omega) (by omega) (by omega) (by omega))]
  rw [List.filter_cons, if_pos (inBounds_true (by omega) (by omega) (by omega) (by omega))]
  rw [List.filter_cons, if_neg (inBounds_false (by omega))]
  rw [List.filter_cons, if_pos (inBounds_true (by omega) (by omega) (by omega) (by omega))]
  rw [List.filter_cons, if_neg (inBounds_false (by omega))]
  rw [List.filter_cons, if_neg (inBounds_false (by omega))]
  rw [List.filter_cons, if_neg (inBounds_false (by omega))]
  rw [List.filter_nil]
  norm_num [sub_eq_add_neg]

lemma ib_br {N i j : Nat} (hN : 2 ≤ N) (hi : i = N - 1) (hj : j = N - 1) :
    inboundsNeighbors N i j =
      [((i : Int) - 1, (j : Int) - 1), ((i : Int) - 1, (j : Int)), ((i : Int), (j : Int) - 1)] := by
  unfold inboundsNeighbors neighborOffsets
  simp only [List.map_cons, List.map_nil]
  rw [List.filter_cons, if_pos (inBounds_true (by omega) (by omega) (by omega) (by omega))]
  rw [List.filter_cons, if_pos (inBounds_true (by omega) (by omega) (by omega) (by omega))]
  rw [List.filter_cons, if_neg (inBounds_false (by omega))]
  rw [List.filter_cons, if_pos (inBounds_true (by omega) (by omega) (by omega) (by omega))]
  rw [List.filter_cons, if_neg (inBounds_false (by omega))]
  rw [List.filter_cons, if_neg (inBounds_false (by omega))]
  rw [List.filter_cons, if_neg (inBounds_false (by omega))]
  rw [List.filter_cons, if_neg (inBounds_false (by omega))]
  rw [List.filter_nil]
  norm_num [sub_eq_add_neg]

lemma ib_bottom {N i j : Nat} (hN : 2 ≤ N) (hi : i = N - 1)
    (hj : j < N) (hj0 : j ≠ 0) (hjN : j ≠ N - 1) :
    inboundsNeighbors N i j =
      [((i : Int) - 1, (j : Int) - 1), ((i : Int) - 1, (j : Int)), ((i : Int) - 1, (j : Int) + 1),
       ((i : Int), (j : Int) - 1), ((i : Int), (j : Int) + 1)] := by
  unfold inboundsNeighbors neighborOffsets
  simp only [List.map_cons, List.map_nil]
  rw [List.filter_cons, if_pos (inBounds_true (by omega) (by omega) (by omega) (by omega))]
  rw [List.filter_cons, if_pos (inBounds_true (by omega) (by omega) (by omega) (by omega))]
  rw [List.filter_cons, if_pos (inBounds_true (by omega) (by omega) (by omega) (by omega))]
  rw [List.filter_cons, if_pos (inBounds_true (by omega) (by omega) (by omega) (by omega))]
  rw [List.filter_cons, if_pos (inBounds_true (by omega) (by omega) (by omega) (by omega))]
  rw [List.filter_cons, if_neg (inBounds_false (by omega))]
  rw [List.filter_cons, if_neg (inBounds_false (by omega))]
  rw [List.filter_cons, if_neg (inBounds_false (by omega))]
  rw [List.filter_nil]
  norm_num [sub_eq_add_neg]

lemma ib_left {N i : Nat} (hN : 2 ≤ N) (hi : i < N) (hi0 : i ≠ 0) (hiN : i ≠ N - 1) :
    inboundsNeighbors N i 0 =
      [((i : Int) - 1, (0 : Int)), ((i : Int) - 1, (1 : Int)), ((i : Int), (1 : Int)),
       ((i : Int) + 1, (0 : Int)), ((i : Int) + 1, (1 : Int))] := by
  unfold inboundsNeighbors neighborOffsets
  simp only [List.map_cons, List.map_nil]
  rw [List.filter_cons, if_neg (inBounds_false (by omega))]
  rw [List.filter_cons, if_pos (inBounds_true (by omega) (by omega) (by omega) (by omega))]
  rw [List.filter_cons, if_pos (inBounds_true (by omega) (by omega) (by omega) (by omega))]
  rw [List.filter_cons, if_neg (inBounds_false (by omega))]
  rw [List.filter_cons, if_pos (inBounds_true (by omega) (by omega) (by omega) (by omega))]
  rw [List.filter_cons, if_neg (inBounds_false (by omega))]
  rw [List.filter_cons, if_pos (inBounds_true (by omega) (by omega) (by omega) (by omega))]
  rw [List.filter_cons, if_pos (inBounds_true (by omega) (by omega) (by omega) (by omega))]
  rw [List.filter_nil]
  norm_num [sub_eq_add_neg]

lemma ib_right {N i j : Nat} (hN : 2 ≤ N) (hi : i < N) (hi0 : i ≠ 0) (hiN : i ≠ N - 1)
    (hj : j = N - 1) :
    inboundsNeighbors N i j =
      [((i : Int) - 1, (j : Int) - 1), ((i : Int) - 1, (j : Int)), ((i : Int), (j : Int) - 1),
       ((i : Int) + 1, (j : Int) - 1), ((i : Int) + 1, (j : Int))] := by
  unfold inboundsNeighbors neighborOffsets
  simp only [List.map_cons, List.map_nil]
  rw [List.filter_cons, if_pos (inBounds_true (by omega) (by omega) (by omega) (by omega))]
  rw [List.filter_cons, if_pos (inBounds_true (by omega) (by omega) (by omega) (by omega))]
  rw [List.filter_cons, if_neg (inBounds_false (by omega))]
  rw [List.filter_cons, if_pos (inBounds_true (by omega) (by omega) (by omega) (by omega))]
  rw [List.filter_cons, if_neg (inBounds_false (by omega))]
  rw [List.filter_cons, if_pos (inBounds_true (by omega) (by omega) (by omega) (by omega))]
  rw [List.filter_cons, if_pos (inBounds_true (by omega) (by omega) (by omega) (by omega))]
  rw [List.filter_cons, if_neg (inBounds_false (by omega))]
  rw [List.filter_nil]
  norm_num [sub_eq_add_neg]

lemma ib_int {N i j : Nat} (hN : 2 ≤ N) (hi : i < N) (hi0 : i ≠ 0) (hiN : i ≠ N - 1)
    (hj : j < N) (hj0 : j ≠ 0) (hjN : j ≠ N - 1) :
    inboundsNeighbors N i j =
      [((i : Int) - 1, (j : Int) - 1), ((i : Int) - 1, (j : Int)), ((i : Int) - 1, (j : Int) + 1),
       ((i : Int), (j : Int) - 1), ((i : Int), (j : Int) + 1),
       ((i : Int) + 1, (j : Int) - 1), ((i : Int) + 1, (j : Int)), ((i : Int) + 1, (j : Int) + 1)] := by
  unfold inboundsNeighbors neighborOffsets
  simp only [List.map_cons, List.map_nil]
  rw [List.filter_cons, if_pos (inBounds_true (by omega) (by omega) (by omega) (by omega))]
  rw [List.filter_cons, if_pos (inBounds_true (by omega) (by omega) (by omega) (by omega))]
  rw [List.filter_cons, if_pos (inBounds_true (by omega) (by omega) (by omega) (by omega))]
  rw [List.filter_cons, if_pos (inBounds_true (by omega) (by omega) (by omega) (by omega))]
  rw [List.filter_cons, if_pos (inBounds_true (by omega) (by omega) (by omega) (by omega))]
  rw [List.filter_cons, if_pos (inBounds_true (by omega) (by omega) (by omega) (by omega))]
  rw [List.filter_cons, if_pos (inBounds_true (by omega) (by omega) (by omega) (by omega))]
  rw [List.filter_cons, if_pos (inBounds_true (by omega) (by omega) (by omega) (by omega))]
  rw [List.filter_nil]
  norm_num [sub_eq_add_neg]

lemma total_eq_uniformTotal (g : Grid) {N i j : Nat} (hN : 2 ≤ N) (hi : i < N) (hj : j < N) :
    total g N i j = uniformTotal g N i j := by
  unfold uniformTotal
  by_cases hi0 : i = 0
  · subst hi0
    by_cases hj0 : j = 0
    · subst hj0
      rw [ib_tl hN]
      simp only [List.foldl_cons, List.foldl_nil, Int.toNat_zero, Int.toNat_one]
      unfold total
      rw [if_pos rfl, if_pos rfl]
      norm_num
    · by_cases hjN : j = N - 1
      · rw [ib_tr hN hjN]
        simp only [List.foldl_cons, List.foldl_nil]
        have e1 : ((j : Int) - 1).toNat = j - 1 := by omega
        have e2 : ((j : Int)).toNat = j := by omega
        rw [e1, e2]
        unfold total
        rw [if_pos rfl, if_neg hj0, if_pos hjN]
        simp only [Int.toNat_zero, Int.toNat_one, Nat.zero_add]
        ring
      · rw [ib_top hN hj hj0 hjN]
        simp only [List.foldl_cons, List.foldl_nil]
        have e1 : ((j : Int) - 1).toNat = j - 1 := by omega
        have e2 : ((j : Int)).toNat = j := by omega
        have e3 : ((j : Int) + 1).toNat = j + 1 := by omega
        rw [e1, e2, e3]
        unfold total
        rw [if_pos rfl, if_neg hj0, if_neg hjN]
        simp only [Int.toNat_zero, Int.toNat_one, Nat.zero_add]
        ring
  · by_cases hiN : i = N - 1
    · have e1 : ((i : Int) - 1).toNat = i - 1 := by omega
      have e2 : ((i : Int)).toNat = i := by omega
      by_cases hj0 : j = 0
      · subst hj0
        rw [ib_bl hN hiN]
        simp only [List.foldl_cons, List.foldl_nil, Int.toNat_zero, Int.toNat_one]
        rw [e1, e2]
        unfold total
        rw [if_neg hi0, if_pos hiN, if_pos rfl]
        norm_num
        ring
      · have f1 : ((j : Int) - 1).toNat = j - 1 := by omega
        have f2 : ((j : Int)).toNat = j := by omega
        by_cases hjN : j = N - 1
        · rw [ib_br hN hiN hjN]
          simp only [List.foldl_cons, List.foldl_nil]
          rw [e1, e2, f1, f2]
          unfold total
          rw [if_neg hi0, if_pos hiN, if_neg hj0, if_pos hjN]
          ring
        · have f3 : ((j : Int) + 1).toNat = j + 1 := by omega
          rw [ib_bottom hN hiN hj hj0 hjN]
          simp only [List.foldl_cons, List.foldl_nil]
          rw [e1, e2, f1, f2, f3]
          unfold total
          rw [if_neg hi0, if_pos hiN, if_neg hj0, if_neg hjN]
          ring
    · have e1 : ((i : Int) - 1).toNat = i - 1 := by omega
      have e2 : ((i : Int)).toNat = i := by omega
      have e3 : ((i : Int) + 1).toNat = i + 1 := by omega
      by_cases hj0 : j = 0
      · subst hj0
        rw [ib_left hN hi hi0 hiN]
        simp only [List.foldl_cons, List.foldl_nil, Int.toNat_zero, Int.toNat_one]
        rw [e1, e2, e3]
        unfold total
        rw [if_neg hi0, if_neg hiN, if_pos rfl]
        norm_num
        ring
      · have f1 : ((j : Int) - 1).toNat = j - 1 := by omega
        have f2 : ((j : Int)).toNat = j := by omega
        by_cases hjN : j = N - 1
        · rw [ib_right hN hi hi0 hiN hjN]
          simp only [List.foldl_cons, List.foldl_nil]
          rw [e1, e2, e3, f1, f2]
          unfold total
          rw [if_neg hi0, if_neg hiN, if_neg hj0, if_pos hjN]
          ring
        · have f3 : ((j : Int) + 1).toNat = j + 1 := by omega
          rw [ib_int hN hi hi0 hiN hj hj0 hjN]
          simp only [List.foldl_cons, List.foldl_nil]
          rw [e1, e2, e3, f1, f2, f3]
          unfold total
          rw [if_neg hi0, if_neg hiN, if_neg hj0, if_neg hjN]
          ring

lemma ib_length_corner {N i j : Nat} (hN : 2 ≤ N)
    (hi : i = 0 ∨ i = N - 1) (hj : j = 0 ∨ j = N - 1) :
    (inboundsNeighbors N i j).length = 3 := by
  rcases hi with rfl | hiN
  · rcases hj with rfl | hjN
    · rw [ib_tl hN]; rfl
    · rw [ib_tr hN hjN]; rfl
  · rcases hj with rfl | hjN
    · rw [ib_bl hN hiN]; rfl
    · rw [ib_br hN hiN hjN]; rfl

lemma ib_length_edge {N i j : Nat} (hN : 2 ≤ N) (hi : i < N) (hj : j < N)
    (h : ((i = 0 ∨ i = N - 1) ∧ ¬(j = 0 ∨ j = N - 1)) ∨
         (¬(i = 0 ∨ i = N - 1) ∧ (j = 0 ∨ j = N - 1))) :
    (inboundsNeighbors N i j).length = 5 := by
  rcases h with ⟨hib, hjb⟩ | ⟨hib, hjb⟩
  · have hj0 : j ≠ 0 := fun hc => hjb (Or.inl hc)
    have hjN : j ≠ N - 1 := fun hc => hjb (Or.inr hc)
    rcases hib with rfl | hiN
    · rw [ib_top hN hj hj0 hjN]; rfl
    · rw [ib_bottom hN hiN hj hj0 hjN]; rfl
  · have hi0 : i ≠ 0 := fun hc => hib (Or.inl hc)
    have hiN : i ≠ N - 1 := fun hc => hib (Or.inr hc)
    rcases hjb with rfl | hjN
    · rw [ib_left hN hi hi0 hiN]; rfl
    · rw [ib_right hN hi hi0 hiN hjN]; rfl

lemma ib_length_interior {N i j : Nat} (hN : 2 ≤ N) (hi : i < N) (hj : j < N)
    (hib : ¬(i = 0 ∨ i = N - 1)) (hjb : ¬(j = 0 ∨ j = N - 1)) :
    (inboundsNeighbors N i j).length = 8 := by
  rw [ib_int hN hi (fun hc => hib (Or.inl hc)) (fun hc => hib (Or.inr hc))
      hj (fun hc => hjb (Or.inl hc)) (fun hc => hjb (Or.inr hc))]
  rfl

/-- Every member of the in-bounds neighbour list really is inside the grid
and at Chebyshev distance 1 from (i, j). -/
lemma ib_mem {N i j : Nat} {p : Int × Int} (hp : p ∈ inboundsNeighbors N i j) :
    0 ≤ p.1 ∧ p.1 < (N : Int) ∧ 0 ≤ p.2 ∧ p.2 < (N : Int) ∧
    ((i : Int) - 1 ≤ p.1 ∧ p.1 ≤ (i : Int) + 1) ∧
    ((j : Int) - 1 ≤ p.2 ∧ p.2 ≤ (j : Int) + 1) := by
  unfold inboundsNeighbors at hp
  rw [List.mem_filter] at hp
  obtain ⟨hmem, hb⟩ := hp
  rw [List.mem_map] at hmem
  obtain ⟨d, hd, rfl⟩ := hmem
  simp only [inBounds, decide_eq_true_eq] at hb
  have hd1 : d.1 = -1 ∨ d.1 = 0 ∨ d.1 = 1 := by
    fin_cases hd <;> simp
  have hd2 : d.2 = -1 ∨ d.2 = 0 ∨ d.2 = 1 := by
    fin_cases hd <;> simp
  refine ⟨hb.1, hb.2.1, hb.2.2.1, hb.2.2.2, ?_, ?_⟩ <;> simp only [] <;> omega

/-- A fold summing binary cell values over a list of positions equals the
count of positions holding the live marker. -/
lemma foldl_add_eq_count (g : Grid) :
    ∀ (l : List (Int × Int)) (c : Int),
      (∀ p ∈ l, g p.1.toNat p.2.toNat = OFF ∨ g p.1.toNat p.2.toNat = ON) →
      l.foldl (fun s p => s + g p.1.toNat p.2.toNat) c
        = c + ((l.filter (fun p => g p.1.toNat p.2.toNat == ON)).length : Int) := by
  intro l
  induction l with
  | nil => intro c _; simp
  | cons p l ih =>
    intro c hbin
    rw [List.foldl_cons, List.filter_cons,
      ih _ (fun q hq => hbin q (List.mem_cons_of_mem _ hq))]
    rcases hbin p (List.mem_cons_self _ _) with h | h
    · rw [h, if_neg (by simp [h, OFF, ON])]
      simp [OFF]
    · rw [h, if_pos (by simp [h])]
      simp [ON]
      ring

lemma uniformTotal_eq_liveCount (g : Grid) {N : Nat} (hbin : Binary g N) (i j : Nat) :
    uniformTotal g N i j = (liveNeighborCount g N i j : Int) := by
  unfold uniformTotal liveNeighborCount
  rw [foldl_add_eq_count]
  · simp
  · intro p hp
    have h := ib_mem hp
    exact hbin p.1.toNat p.2.toNat (by omega) (by omega)


lemma npGet_some (grid : Grid) {N : Nat} {a b : Int} (h1 : 0 ≤ a) (h2 : a < (N : Int))
    (h3 : 0 ≤ b) (h4 : b < (N : Int)) :
    npGet grid N a b = some (grid a.toNat b.toNat) := by
  unfold npGet
  rw [if_pos ⟨by omega, h2, by omega, h4⟩, Int.emod_eq_of_lt h1 h2, Int.emod_eq_of_lt h3 h4]

/-- For N ≥ 2 every access of the neighbour-sum computation is in bounds and
the checked computation returns exactly the unchecked sum. -/
lemma totalChecked_eq (g : Grid) {N i j : Nat} (hN : 2 ≤ N) (hi : i < N) (hj : j < N) :
    totalChecked g N (i : Int) (j : Int) = some (total g N i j) := by
  unfold totalChecked
  by_cases hi0 : i = 0
  · subst hi0
    rw [if_pos (by norm_num : (((0 : Nat) : Int)) = 0)]
    by_cases hj0 : j = 0
    · subst hj0
      rw [if_pos (by norm_num : (((0 : Nat) : Int)) = 0)]
      rw [npGet_some g (by omega) (by omega) (by omega) (by omega)]
      rw [npGet_some g (by omega) (by omega) (by omega) (by omega)]
      rw [npGet_some g (by omega) (by omega) (by omega) (by omega)]
      simp only [Option.bind_eq_bind, Option.some_bind, Option.pure_def]
      congr 1
    · rw [if_neg (show ¬ ((j : Int) = 0) by omega)]
      by_cases hjN : j = N - 1
      · rw [if_pos (show (j : Int) = (N : Int) - 1 by omega)]
        rw [npGet_some g (by omega) (by omega) (by omega) (by omega)]
        rw [npGet_some g (by omega) (by omega) (by omega) (by omega)]
        rw [npGet_some g (by omega) (by omega) (by omega) (by omega)]
        simp only [Option.bind_eq_bind, Option.some_bind, Option.pure_def]
        congr 1
        unfold total
        rw [if_pos rfl, if_neg hj0, if_pos hjN]
        have ej0 : ((j : Int)).toNat = j := by omega
        have ejm : ((j : Int) - 1).toNat = j - 1 := by omega
        rw [ej0, ejm]
        norm_num
      · rw [if_neg (show ¬ ((j : Int) = (N : Int) - 1) by omega)]
        rw [npGet_some g (by omega) (by omega) (by omega) (by omega)]
        rw [npGet_some g (by omega) (by omega) (by omega) (by omega)]
        rw [npGet_some g (by omega) (by omega) (by omega) (by omega)]
        rw [npGet_some g (by omega) (by omega) (by omega) (by omega)]
        rw [npGet_some g (by omega) (by omega) (by omega) (by omega)]
        simp only [Option.bind_eq_bind, Option.some_bind, Option.pure_def]
        congr 1
        unfold total
        rw [if_pos rfl, if_neg hj0, if_neg hjN]
        have ej0 : ((j : Int)).toNat = j := by omega
        have ejm : ((j : Int) - 1).toNat = j - 1 := by omega
        have ejp : ((j : Int) + 1).toNat = j + 1 := by omega
        rw [ej0, ejm, ejp]
        norm_num
  · rw [if_neg (show ¬ ((i : Int) = 0) by omega)]
    by_cases hiN : i = N - 1
    · rw [if_pos (show (i : Int) = (N : Int) - 1 by omega)]
      have ei0 : ((i : Int)).toNat = i := by omega
      have eim : ((i : Int) - 1).toNat = i - 1 := by omega
      by_cases hj0 : j = 0
      · subst hj0
        rw [if_pos (by norm_num : (((0 : Nat) : Int)) = 0)]
        rw [npGet_some g (by omega) (by omega) (by omega) (by omega)]
        rw [npGet_some g (by omega) (by omega) (by omega) (by omega)]
        rw [npGet_some g (by omega) (by omega) (by omega) (by omega)]
        simp only [Option.bind_eq_bind, Option.some_bind, Option.pure_def]
        congr 1
        unfold total
        rw [if_neg hi0, if_pos hiN, if_pos rfl]
        rw [ei0, eim]
        norm_num
      · rw [if_neg (show ¬ ((j : Int) = 0) by omega)]
        by_cases hjN : j = N - 1
        · rw [if_pos (show (j : Int) = (N : Int) - 1 by omega)]
          rw [npGet_some g (by omega) (by omega) (by omega) (by omega)]
          rw [npGet_some g (by omega) (by omega) (by omega) (by omega)]
          rw [npGet_some g (by omega) (by omega) (by omega) (by omega)]
          simp only [Option.bind_eq_bind, Option.some_bind, Option.pure_def]
          congr 1
          unfold total
          rw [if_neg hi0, if_pos hiN, if_neg hj0, if_pos hjN]
          have ej0 : ((j : Int)).toNat = j := by omega
          have ejm : ((j : Int) - 1).toNat = j - 1 := by omega
          rw [ei0, eim, ej0, ejm]
        · rw [if_neg (show ¬ ((j : Int) = (N : Int) - 1) by omega)]
          rw [npGet_some g (by omega) (by omega) (by omega) (by omega)]
          rw [npGet_some g (by omega) (by omega) (by omega) (by omega)]
          rw [npGet_some g (by omega) (by omega) (by omega) (by omega)]
          rw [npGet_some g (by omega) (by omega) (by omega) (by omega)]
          rw [npGet_some g (by omega) (by omega) (by omega) (by omega)]
          simp only [Option.bind_eq_bind, Option.some_bind, Option.pure_def]
          congr 1
          unfold total
          rw [if_neg hi0, if_pos hiN, if_neg hj0, if_neg hjN]
          have ej0 : ((j : Int)).toNat = j := by omega
          have ejm : ((j : Int) - 1).toNat = j - 1 := by omega
          have ejp : ((j : Int) + 1).toNat = j + 1 := by omega
          rw [ei0, eim, ej0, ejm, ejp]
    · rw [if_neg (show ¬ ((i : Int) = (N : Int) - 1) by omega)]
      have ei0 : ((i : Int)).toNat = i := by omega
      have eim : ((i : Int) - 1).toNat = i - 1 := by omega
      have eip : ((i : Int) + 1).toNat = i + 1 := by omega
      by_cases hj0 : j = 0
      · subst hj0
        rw [if_pos (by norm_num : (((0 : Nat) : Int)) = 0)]
        rw [npGet_some g (by omega) (by omega) (by omega) (by omega)]
        rw [npGet_some g (by omega) (by omega) (by omega) (by omega)]
        rw [npGet_some g (by omega) (by omega) (by omega) (by omega)]
        rw [npGet_some g (by omega) (by omega) (by omega) (by omega)]
        rw [npGet_some g (by omega) (by omega) (by omega) (by omega)]
        simp only [Option.bind_eq_bind, Option.some_bind, Option.pure_def]
        congr 1
        unfold total
        rw [if_neg hi0, if_neg hiN, if_pos rfl]
        rw [ei0, eim, eip]
        norm_num
      · rw [if_neg (show ¬ ((j : Int) = 0) by omega)]
        by_cases hjN : j = N - 1
        · rw [if_pos (show (j : Int) = (N : Int) - 1 by omega)]
          rw [npGet_some g (by omega) (by omega) (by omega) (by omega)]
          rw [npGet_some g (by omega) (by omega) (by omega) (by omega)]
          rw [npGet_some g (by omega) (by omega) (by omega) (by omega)]
          rw [npGet_some g (by omega) (by omega) (by omega) (by omega)]
          rw [npGet_some g (by omega) (by omega) (by omega) (by omega)]
          simp only [Option.bind_eq_bind, Option.some_bind, Option.pure_def]
          congr 1
          unfold total
          rw [if_neg hi0, if_neg hiN, if_neg hj0, if_pos hjN]
          have ej0 : ((j : Int)).toNat = j := by omega
          have ejm : ((j : Int) - 1).toNat = j - 1 := by omega
          rw [ei0, eim, eip, ej0, ejm]
        · rw [if_neg (show ¬ ((j : Int) = (N : Int) - 1) by omega)]
          rw [npGet_some g (by omega) (by omega) (by omega) (by omega)]
          rw [npGet_some g (by omega) (by omega) (by omega) (by omega)]
          rw [npGet_some g (by omega) (by omega) (by omega) (by omega)]
          rw [npGet_some g (by omega) (by omega) (by omega) (by omega)]
          rw [npGet_some g (by omega) (by omega) (by omega) (by omega)]
          rw [npGet_some g (by omega) (by omega) (by omega) (by omega)]
          rw [npGet_some g (by omega) (by omega) (by omega) (by omega)]
          rw [npGet_some g (by omega) (by omega) (by omega) (by omega)]
          simp only [Option.bind_eq_bind, Option.some_bind, Option.pure_def]
          congr 1
          unfold total
          rw [if_neg hi0, if_neg hiN, if_neg hj0, if_neg hjN]
          have ej0 : ((j : Int)).toNat = j := by omega
          have ejm : ((j : Int) - 1).toNat = j - 1 := by omega
          have ejp : ((j : Int) + 1).toNat = j + 1 := by omega
          rw [ei0, eim, eip, ej0, ejm, ejp]

lemma foldl_add_congr (g₁ g₂ : Grid) :
    ∀ (l : List (Int × Int)) (c : Int),
      (∀ p ∈ l, g₁ p.1.toNat p.2.toNat = g₂ p.1.toNat p.2.toNat) →
      l.foldl (fun s p => s + g₁ p.1.toNat p.2.toNat) c
        = l.foldl (fun s p => s + g₂ p.1.toNat p.2.toNat) c := by
  intro l
  induction l with
  | nil => intro c _; rfl
  | cons p l ih =>
    intro c h
    rw [List.foldl_cons, List.foldl_cons, h p (List.mem_cons_self _ _),
      ih _ (fun q hq => h q (List.mem_cons_of_mem _ hq))]

/-- The neighbour sum reads only in-bounds cells at Chebyshev distance 1. -/
lemma total_congr (g₁ g₂ : Grid) {N i j : Nat} (hN : 2 ≤ N) (hi : i < N) (hj : j < N)
    (hagree : ∀ a b : Nat, a < N → b < N →
      i ≤ a + 1 → a ≤ i + 1 → j ≤ b + 1 → b ≤ j + 1 → g₁ a b = g₂ a b) :
    total g₁ N i j = total g₂ N i j := by
  rw [total_eq_uniformTotal g₁ hN hi hj, total_eq_uniformTotal g₂ hN hi hj]
  unfold uniformTotal
  apply foldl_add_congr
  intro p hp
  have h := ib_mem hp
  apply hagree <;> omega

lemma nextCell_congr (g₁ g₂ : Grid) {N i j : Nat} (hN : 2 ≤ N) (hi : i < N) (hj : j < N)
    (hagree : ∀ a b : Nat, a < N → b < N →
      i ≤ a + 1 → a ≤ i + 1 → j ≤ b + 1 → b ≤ j + 1 → g₁ a b = g₂ a b) :
    nextCell g₁ N i j = nextCell g₂ N i j := by
  have ht := total_congr g₁ g₂ hN hi hj hagree
  have hc : g₁ i j = g₂ i j :=
    hagree i j hi hj (by omega) (by omega) (by omega) (by omega)
  unfold nextCell applyCell
  rw [ht, hc]

/-- Claim C1: for every binary N×N grid (N ≥ 2) and every cell (i, j),
`update` sets the output cell by the standard rule on the live-neighbour
count: a live cell dies iff the count is below 2 or above 3 and survives on
2 or 3; a dead cell is born iff the count is exactly 3; and any cell with
count 3 is live in the next generation regardless of its prior state. -/
theorem update_rule_standard (g : Grid) (N : Nat) (hbin : Binary g N) (hN : 2 ≤ N)
    (i j : Nat) (hi : i < N) (hj : j < N) :
    (g i j = ON → (liveNeighborCount g N i j < 2 ∨ 3 < liveNeighborCount g N i j) →
      update g N i j = OFF) ∧
    (g i j = ON → (liveNeighborCount g N i j = 2 ∨ liveNeighborCount g N i j = 3) →
      update g N i j = ON) ∧
    (g i j = OFF → liveNeighborCount g N i j = 3 → update g N i j = ON) ∧
    (g i j = OFF → liveNeighborCount g N i j ≠ 3 → update g N i j = OFF) ∧
    (liveNeighborCount g N i j = 3 → update g N i j = ON) := by
  have ht : total g N i j = (liveNeighborCount g N i j : Int) := by
    rw [total_eq_uniformTotal g hN hi hj, uniformTotal_eq_liveCount g hbin]
  rw [update_apply g hi hj]
  unfold nextCell applyCell
  rw [ht]
  refine ⟨?_, ?_, ?_, ?_, ?_⟩
  · intro hon hrange
    rw [if_pos hon,
      if_pos (show ((liveNeighborCount g N i j : Int)) < 2 ∨
        ((liveNeighborCount g N i j : Int)) > 3 by omega)]
  · intro hon h23
    rw [if_pos hon,
      if_neg (show ¬ (((liveNeighborCount g N i j : Int)) < 2 ∨
        ((liveNeighborCount g N i j : Int)) > 3) by omega)]
    exact hon
  · intro hoff h3
    rw [if_neg (show ¬ (g i j = ON) by rw [hoff]; decide),
      if_pos (show ((liveNeighborCount g N i j : Int)) = 3 by omega)]
  · intro hoff hne3
    rw [if_neg (show ¬ (g i j = ON) by rw [hoff]; decide),
      if_neg (show ¬ (((liveNeighborCount g N i j : Int)) = 3) by omega)]
    exact hoff
  · intro h3
    by_cases hon : g i j = ON
    · rw [if_pos hon,
        if_neg (show ¬ (((liveNeighborCount g N i j : Int)) < 2 ∨
          ((liveNeighborCount g N i j : Int)) > 3) by omega)]
      exact hon
    · rw [if_neg hon,
        if_pos (show ((liveNeighborCount g N i j : Int)) = 3 by omega)]

/-- Witness for C1: on the all-live 2×2 grid, cell (0, 0) is live with 3 live
neighbours and survives. -/
theorem update_rule_standard_witness : update liveGrid 2 0 0 = ON :=
  (update_rule_standard liveGrid 2 (fun _ _ _ _ => Or.inr rfl) (by norm_num)
    0 0 (by norm_num) (by norm_num)).2.1 rfl (by decide)

/-- Claim C2: the 9-branch neighbour sum of `update` equals the uniform
reference routine that enumerates the 8 offsets and filters out-of-bounds
positions, and the in-bounds neighbourhood has exactly 3 cells at a corner,
5 on a non-corner edge and 8 in the interior. -/
theorem total_refines_uniform (g : Grid) (N i j : Nat) (hN : 2 ≤ N)
    (hi : i < N) (hj : j < N) :
    total g N i j = uniformTotal g N i j ∧
    (((i = 0 ∨ i = N - 1) ∧ (j = 0 ∨ j = N - 1)) →
      (inboundsNeighbors N i j).length = 3) ∧
    ((((i = 0 ∨ i = N - 1) ∧ ¬(j = 0 ∨ j = N - 1)) ∨
      (¬(i = 0 ∨ i = N - 1) ∧ (j = 0 ∨ j = N - 1))) →
      (inboundsNeighbors N i j).length = 5) ∧
    ((¬(i = 0 ∨ i = N - 1) ∧ ¬(j = 0 ∨ j = N - 1)) →
      (inboundsNeighbors N i j).length = 8) :=
  ⟨total_eq_uniformTotal g hN hi hj,
   fun h => ib_length_corner hN h.1 h.2,
   fun h => ib_length_edge hN hi hj h,
   fun h => ib_length_interior hN hi hj h.1 h.2⟩

/-- Witness for C2 at the all-live 3×3 grid and the edge cell (0, 1). -/
theorem total_refines_uniform_witness :
    total liveGrid 3 0 1 = uniformTotal liveGrid 3 0 1 ∧
    (inboundsNeighbors 3 0 1).length = 5 := by
  have h := total_refines_uniform liveGrid 3 0 1 (by norm_num)
    (by norm_num) (by norm_num)
  exact ⟨h.1, h.2.2.1 (by decide)⟩

/-- Claim C3 counterexample: for N = 1 the top-left-corner branch of the
neighbour sum accesses (0, 1), (1, 0) and (1, 1), all out of bounds on a 1×1
array, so the computation raises IndexError (modelled as `none`) instead of
returning a grid. -/
theorem totalChecked_fails_at_one : totalChecked deadGrid 1 0 0 = none := by
  decide

/-- Claim C3 (amended): for every well-formed grid and N ≥ 2 the accesses in
the body of `update` are all in bounds — the rule's read of grid[i, j]
succeeds and the checked neighbour sum returns the unchecked value — so the
function is total. -/
theorem update_total_for_ge_two (g : Grid) (N : Nat) (hN : 2 ≤ N)
    (i j : Nat) (hi : i < N) (hj : j < N) :
    npGet g N i j = some (g i j) ∧
    totalChecked g N i j = some (total g N i j) := by
  constructor
  · rw [npGet_some g (by omega) (by omega) (by omega) (by omega)]
    have e1 : ((i : Int)).toNat = i := by omega
    have e2 : ((j : Int)).toNat = j := by omega
    rw [e1, e2]
  · exact totalChecked_eq g hN hi hj

/-- Witness for C3 (amended) on the all-dead 2×2 grid at cell (0, 0). -/
theorem update_total_for_ge_two_witness :
    npGet deadGrid 2 0 0 = some (deadGrid 0 0) ∧
    totalChecked deadGrid 2 0 0 = some (total deadGrid 2 0 0) :=
  update_total_for_ge_two deadGrid 2 (by norm_num) 0 0 (by norm_num) (by norm_num)

/-- Claim C4 counterexample: in the 2×2 grid whose top-left cell holds the
non-binary value 2, that cell is not ON and its neighbour total is 0 ≠ 3,
yet after `update` it still holds 2 — it is not DEAD as the claim asserts. -/
theorem update_nonOn_cex :
    gTwo 0 0 ≠ ON ∧ total gTwo 2 0 0 ≠ 3 ∧
    update gTwo 2 0 0 = 2 ∧ update gTwo 2 0 0 ≠ OFF := by
  refine ⟨by decide, by decide, by decide, by decide⟩

/-- Claim C4 (amended): a cell whose value is not ON takes the else branch of
the rule: it becomes ON iff its neighbour total is exactly 3, and otherwise
keeps its prior (copied) value — which is DEAD only when it was already
DEAD. -/
theorem update_nonOn_else (g : Grid) (N : Nat) (hN : 2 ≤ N) (i j : Nat)
    (hi : i < N) (hj : j < N) (h : g i j ≠ ON) :
    update g N i j = if total g N i j = 3 then ON else g i j := by
  rw [update_apply g hi hj]
  unfold nextCell applyCell
  rw [if_neg h]

/-- Witness for C4 (amended) at the malformed grid's top-left cell. -/
theorem update_nonOn_else_witness :
    update gTwo 2 0 0 = if total gTwo 2 0 0 = 3 then ON else gTwo 0 0 :=
  update_nonOn_else gTwo 2 (by norm_num) 0 0 (by norm_num) (by norm_num) (by decide)

/-- Claim C5 counterexample: the edge (non-corner) cell (0, 1) of a 3×3 grid
has 5 in-bounds neighbours, not 3, and on the all-live grid the code's
neighbour sum there is 5 — impossible if only 3 binary cells were summed. -/
theorem edge_neighborhood_not_three :
    (inboundsNeighbors 3 0 1).length = 5 ∧ total liveGrid 3 0 1 = 5 :=
  ⟨by decide, by decide⟩

/-- Claim C5 (amended): the truncated neighbourhood summed for a boundary
edge cell that is not a corner contains exactly 5 in-bounds neighbour cells,
and the sum `update` computes for it is the uniform sum over those cells. -/
theorem edge_neighborhood_five (N i j : Nat) (hN : 2 ≤ N) (hi : i < N) (hj : j < N)
    (h : ((i = 0 ∨ i = N - 1) ∧ ¬(j = 0 ∨ j = N - 1)) ∨
         (¬(i = 0 ∨ i = N - 1) ∧ (j = 0 ∨ j = N - 1))) :
    (inboundsNeighbors N i j).length = 5 ∧
    ∀ g : Grid, total g N i j = uniformTotal g N i j :=
  ⟨ib_length_edge hN hi hj h, fun g => total_eq_uniformTotal g hN hi hj⟩

/-- Witness for C5 (amended) at the 3×3 edge cell (0, 1). -/
theorem edge_neighborhood_five_witness :
    (inboundsNeighbors 3 0 1).length = 5 ∧
    total deadGrid 3 0 1 = uniformTotal deadGrid 3 0 1 := by
  have h := edge_neighborhood_five 3 0 1 (by norm_num) (by norm_num) (by norm_num)
    (by decide)
  exact ⟨h.1, h.2 deadGrid⟩

/-- Claim C6: `update` has no side effect on its input: the loop only ever
assigns to the newGrid component of the state, so the grid component after
the whole double loop is exactly the input grid (value semantics). -/
theorem update_no_input_mutation (g : Grid) (N : Nat) : (updateSt g N).1 = g := by
  rw [updateSt_eq]

/-- Claim C7: locality/noninterference — two grids that agree at (i, j) and
at every in-bounds cell at Chebyshev distance 1 produce the same updated
value at (i, j): each output cell depends only on its own truncated
neighbourhood and prior state in the old generation. -/
theorem update_local (N : Nat) (hN : 2 ≤ N) (i j : Nat) (hi : i < N) (hj : j < N)
    (g₁ g₂ : Grid)
    (hagree : ∀ a b : Nat, a < N → b < N →
      i ≤ a + 1 → a ≤ i + 1 → j ≤ b + 1 → b ≤ j + 1 → g₁ a b = g₂ a b) :
    update g₁ N i j = update g₂ N i j := by
  rw [update_apply g₁ hi hj, update_apply g₂ hi hj]
  exact nextCell_congr g₁ g₂ hN hi hj hagree

/-- Witness for C7: making the far cell (2, 2) live does not change the
updated value of the corner (0, 0) in a 3×3 grid. -/
theorem update_local_witness : update deadGrid 3 0 0 = update cornerFar 3 0 0 :=
  update_local 3 (by norm_num) 0 0 (by norm_num) (by norm_num) deadGrid cornerFar
    (fun a b ha hb h1 h2 h3 h4 => by
      interval_cases a <;> interval_cases b <;> first | rfl | omega)

/-- Claim C8: binary closure — if every cell of the input grid is OFF or ON
then so is every cell of the updated grid, so iterated calls keep the grid
binary. -/
theorem update_preserves_binary (g : Grid) (N : Nat) (hN : 2 ≤ N)
    (hbin : Binary g N) : Binary (update g N) N := by
  intro i j hi hj
  rw [update_apply g hi hj]
  unfold nextCell applyCell
  split_ifs with h1 h2 h3
  · left; rfl
  · right; exact h1
  · right; rfl
  · exact hbin i j hi hj

/-- Witness for C8 on the all-dead 2×2 grid. -/
theorem update_preserves_binary_witness : Binary (update deadGrid 2) 2 :=
  update_preserves_binary deadGrid 2 (by norm_num) (fun _ _ _ _ => Or.inl rfl)

/-- Claim C9: blinker oscillation — one update of the horizontal blinker in
a 5×5 grid yields the vertical blinker, and a second update returns exactly
the original horizontal grid (period 2). -/
theorem blinker_period_two :
    update blinkerH 5 = blinkerV ∧ update (update blinkerH 5) 5 = blinkerH := by
  have h1 : update blinkerH 5 = blinkerV := by
    funext i j
    rw [update_apply_full]
    by_cases hij : i < 5 ∧ j < 5
    · obtain ⟨hi, hj⟩ := hij
      rw [if_pos ⟨hi, hj⟩]
      interval_cases i <;> interval_cases j <;> decide
    · rw [if_neg hij]
      unfold blinkerH blinkerV
      split_ifs <;> first | rfl | omega
  have h2 : update blinkerV 5 = blinkerH := by
    funext i j
    rw [update_apply_full]
    by_cases hij : i < 5 ∧ j < 5
    · obtain ⟨hi, hj⟩ := hij
      rw [if_pos ⟨hi, hj⟩]
      interval_cases i <;> interval_cases j <;> decide
    · rw [if_neg hij]
      unfold blinkerH blinkerV
      split_ifs <;> first | rfl | omega
  exact ⟨h1, by rw [h1, h2]⟩

/-- Claim C10: the all-dead N×N grid is a fixed point of `update` for every
N ≥ 2: every neighbour total is 0, no birth fires, and the copy default
keeps every cell dead. -/
theorem update_allDead_fixed (N : Nat) (hN : 2 ≤ N) :
    update deadGrid N = deadGrid := by
  funext i j
  rw [update_apply_full]
  by_cases hij : i < N ∧ j < N
  · rw [if_pos hij]
    have ht : total deadGrid N i j = 0 := by
      unfold total deadGrid OFF
      split_ifs <;> norm_num
    unfold nextCell applyCell
    rw [if_neg (show ¬ (deadGrid i j = ON) by unfold deadGrid OFF ON; decide), ht]
    norm_num
  · rw [if_neg hij]

/-- Witness for C10 at N = 4. -/
theorem update_allDead_fixed_witness : update deadGrid 4 = deadGrid :=
  update_allDead_fixed 4 (by norm_num)

end Conway
